import Mathlib

/-!
Shallow embedding of the go-mysqldump dump engine (src/dump.go, version 0.5.0,
together with the `sanitize` helper file).  Strings model Go byte strings; all
concrete inputs used in theorems are ASCII, so `String.length` agrees with the
Go byte length.  Go `int` arithmetic is modelled with `Int` (the lengths
involved are far from the 64-bit boundary).
-/

namespace MysqlDump

def defaultMaxAllowedPacket : Int := 4194304

/-- One replacement step of the `strings.Replacer` built in `mysqlReplacer`:
each of the nine special characters maps to its two-character escape, every
other character is kept unchanged.  `strings.Replacer.Replace` performs a
single left-to-right pass over the input, never re-scanning emitted output,
which for single-character patterns is exactly a character-wise map. -/
def sanitizeChar (c : Char) : String :=
  if c = Char.ofNat 0 then "\\0"
  else if c = Char.ofNat 39 then "\\\x27"
  else if c = Char.ofNat 34 then "\\\x22"
  else if c = Char.ofNat 8 then "\\b"
  else if c = Char.ofNat 10 then "\\n"
  else if c = Char.ofNat 13 then "\\r"
  else if c = Char.ofNat 26 then "\\Z"
  else if c = Char.ofNat 92 then "\\\\"
  else if c = Char.ofNat 37 then "\\%"
  else String.singleton c

/-- Character-wise single pass over the input, emitting each replacement and
moving on (the emitted text is never re-scanned). -/
def sanitizeList : List Char → String
  | [] => ""
  | c :: cs => sanitizeChar c ++ sanitizeList cs

/-- `sanitize` from the sanitize helper file: a single pass of the replacer. -/
def sanitize (s : String) : String :=
  sanitizeList s.toList

/-- The nine characters the replacer rewrites. -/
def sanitizeSpecials : List Char :=
  [Char.ofNat 0, Char.ofNat 39, Char.ofNat 34, Char.ofNat 8, Char.ofNat 10,
   Char.ofNat 13, Char.ofNat 26, Char.ofNat 92, Char.ofNat 37]

/-- Runtime value of one scanned column, after `table.Init` has chosen the
scan target type (`sql.NullInt64`, `sql.RawBytes` or `sql.NullString`); `vNil`
is an untyped nil interface, `other` is the default `fmt.Fprintf` case. -/
inductive Value where
  | vNil : Value
  | nullString (valid : Bool) (s : String) : Value
  | nullInt (valid : Bool) (i : Int) : Value
  | rawBytes (b : String) : Value
  | other (s : String) : Value
deriving DecidableEq

/-- The SQL literal text `table.RowBuffer` writes for one column value. -/
def valueLit : Value → String
  | .vNil => "NULL"
  | .nullString valid s => if valid then "\x27" ++ sanitize s ++ "\x27" else "NULL"
  | .nullInt valid i => if valid then toString i else "NULL"
  | .rawBytes b => if b.length = 0 then "NULL" else "_binary \x27" ++ sanitize b ++ "\x27"
  | .other s => "\x27" ++ s ++ "\x27"

/-- `table.RowBuffer`: one row rendered as `(v1,v2,...,vN)`. -/
def rowBuffer (vs : List Value) : String :=
  "(" ++ String.intercalate "," (vs.map valueLit) ++ ")"

/-- `table.NameEsc`: the table name wrapped in backquotes. -/
def tblNameEsc (name : String) : String := "`" ++ name ++ "`"

/-- The text `table.Stream` seeds an empty insert buffer with
(`fmt.Fprintf(&insert, "INSERT INTO %s VALUES ", table.NameEsc())`). -/
def insertSeed (nameEsc : String) : String := "INSERT INTO " ++ nameEsc ++ " VALUES "

/-- The loop body of `table.Stream`, operating on the current `insert` buffer
and the remaining (already encoded) rows; `B` is `data.MaxAllowedPacket`.
Emitted statements are collected in order.  The channel/goroutine plumbing of
the source only makes this sequence lazy; the sequence itself is as below. -/
def streamGo (B : Int) (nameEsc : String) : String → List String → List String
  | ins, [] => if ins.length ≠ 0 then [ins ++ ";"] else []
  | ins, r :: rs =>
      if ins.length ≠ 0 ∧ ((ins.length : Int) + (r.length : Int) > B - 1) then
        (ins ++ ";") :: streamGo B nameEsc (insertSeed nameEsc ++ r) rs
      else
        streamGo B nameEsc ((if ins.length = 0 then insertSeed nameEsc else ins ++ ",") ++ r) rs

/-- `table.Stream` on a list of encoded rows: the ordered list of emitted
INSERT statements. -/
def stream (B : Int) (nameEsc : String) (rows : List String) : List String :=
  streamGo B nameEsc "" rows

/-- Comma-joined row tuples, as they appear inside one INSERT statement. -/
def joinRows : List String → String
  | [] => ""
  | [r] => r
  | r :: s :: rs => r ++ "," ++ joinRows (s :: rs)

/-- The insert buffer contents determined by the rows of the current batch:
empty for no rows, otherwise the seed followed by the comma-joined rows. -/
def bufOf (nameEsc : String) (cur : List String) : String :=
  if cur.isEmpty then "" else insertSeed nameEsc ++ joinRows cur

/-- Ghost version of the `table.Stream` loop that tracks which rows end up in
which emitted statement (same flush decisions as `streamGo`, expressed through
`bufOf`). -/
def batchesGo (B : Int) (nameEsc : String) : List String → List String → List (List String)
  | cur, [] => if cur.isEmpty then [] else [cur]
  | cur, r :: rs =>
      if ¬cur.isEmpty ∧ (((bufOf nameEsc cur).length : Int) + (r.length : Int) > B - 1) then
        cur :: batchesGo B nameEsc [r] rs
      else
        batchesGo B nameEsc (cur ++ [r]) rs

/-- The row groups of the statements `table.Stream` emits. -/
def batches (B : Int) (nameEsc : String) (rows : List String) : List (List String) :=
  batchesGo B nameEsc [] rows

/-- The full statement text corresponding to one batch of rows. -/
def renderBatch (nameEsc : String) (batch : List String) : String :=
  insertSeed nameEsc ++ joinRows batch ++ ";"

/-! ## The dump session (`Data.Dump` and its helpers) -/

/-- Transaction operations issued on the single snapshot transaction. -/
inductive TxAction where
  | txBegin : TxAction
  | txCommit : TxAction
  | txRollback : TxAction
deriving DecidableEq

/-- The caller-supplied configuration fields of `Data` that the dump reads. -/
structure DumpConfig where
  ignoreTables : List String
  maxAllowedPacket : Int
  lockTables : Bool

/-- Oracle for the database side of one dump run: the outcome of every query
`Data.Dump` can issue.  Errors are modelled by their message text. -/
structure DbOracle where
  beginOk : Bool
  serverVersion : Except String String
  showTables : Except String (List (Option String))
  lockOk : Bool
  showCreate : String → Except String (String × String)
  tableRows : String → List (List Value)
  rowsErr : String → Option String
  completeTime : String

/-- `Data.Dump` replaces only an exactly-zero `MaxAllowedPacket` by the
default; every other value (negative ones included) is kept as is. -/
def effectivePacket (m : Int) : Int :=
  if m = 0 then defaultMaxAllowedPacket else m

/-- `Data.getTables`: names scanned from SHOW TABLES, dropping NULL names and
names in the ignore list. -/
def getTablesRun (ignore : List String) (res : Except String (List (Option String))) :
    Except String (List String) :=
  match res with
  | .error e => .error e
  | .ok names => .ok (names.filterMap fun x =>
      match x with
      | some nm => if ignore.contains nm then none else some nm
      | none => none)

/-- `table.CreateSQL`: the SHOW CREATE TABLE result, rejected when the
returned table name differs from the requested one. -/
def createSQLRun (name : String) (q : Except String (String × String)) :
    Except String String :=
  match q with
  | .error e => .error e
  | .ok (ret, sql) =>
      if ret ≠ name then .error "Returned table is not the same as requested table"
      else .ok sql

/-- The text the header template writes, with `DumpVersion = 0.5.0` and the
server version substituted. -/
def headerText (sv : String) : String :=
  "-- Go SQL Dump 0.5.0\n--\n-- ------------------------------------------------------\n-- Server version\t"
  ++ sv
  ++ "\n\n/*!40101 SET @OLD_CHARACTER_SET_CLIENT=@@CHARACTER_SET_CLIENT */;\n/*!40101 SET @OLD_CHARACTER_SET_RESULTS=@@CHARACTER_SET_RESULTS */;\n/*!40101 SET @OLD_COLLATION_CONNECTION=@@COLLATION_CONNECTION */;\n SET NAMES utf8mb4 ;\n/*!40103 SET @OLD_TIME_ZONE=@@TIME_ZONE */;\n/*!40103 SET TIME_ZONE=\x27+00:00\x27 */;\n/*!40014 SET @OLD_UNIQUE_CHECKS=@@UNIQUE_CHECKS, UNIQUE_CHECKS=0 */;\n/*!40014 SET @OLD_FOREIGN_KEY_CHECKS=@@FOREIGN_KEY_CHECKS, FOREIGN_KEY_CHECKS=0 */;\n/*!40101 SET @OLD_SQL_MODE=@@SQL_MODE, SQL_MODE=\x27NO_AUTO_VALUE_ON_ZERO\x27 */;\n/*!40111 SET @OLD_SQL_NOTES=@@SQL_NOTES, SQL_NOTES=0 */;\n"

/-- The text the footer template writes, with the completion time
substituted. -/
def footerText (ct : String) : String :=
  "/*!40103 SET TIME_ZONE=@OLD_TIME_ZONE */;\n\n/*!40101 SET SQL_MODE=@OLD_SQL_MODE */;\n/*!40014 SET FOREIGN_KEY_CHECKS=@OLD_FOREIGN_KEY_CHECKS */;\n/*!40014 SET UNIQUE_CHECKS=@OLD_UNIQUE_CHECKS */;\n/*!40101 SET CHARACTER_SET_CLIENT=@OLD_CHARACTER_SET_CLIENT */;\n/*!40101 SET CHARACTER_SET_RESULTS=@OLD_CHARACTER_SET_RESULTS */;\n/*!40101 SET COLLATION_CONNECTION=@OLD_COLLATION_CONNECTION */;\n/*!40111 SET SQL_NOTES=@OLD_SQL_NOTES */;\n\n-- Dump completed on "
  ++ ct ++ "\n"

/-- The bytes the table template has written to the sink by the time it
reaches `{{ .CreateSQL }}`: `text/template` writes each node to the output
writer as it executes, so the section comment, the DROP TABLE statement and
the charset lines for the table land on the sink before the SHOW CREATE TABLE
result is even requested. -/
def tableSectionPre (ne : String) : String :=
  "\n--\n-- Table structure for table " ++ ne ++ "\n--\n\nDROP TABLE IF EXISTS " ++ ne
  ++ ";\n/*!40101 SET @saved_cs_client     = @@character_set_client */;\n SET character_set_client = utf8mb4 ;\n"

/-- The remainder of the table template after a successful
`{{ .CreateSQL }}`: the charset restore, the data-section comment, the lock
and DISABLE KEYS bracket, one line per streamed INSERT statement, and the
ENABLE KEYS and unlock bracket. -/
def tableSectionPost (ne : String) (sql : String) (stmts : List String) : String :=
  sql ++ ";\n/*!40101 SET character_set_client = @saved_cs_client */;\n\n--\n-- Dumping data for table "
  ++ ne ++ "\n--\n\nLOCK TABLES " ++ ne ++ " WRITE;\n/*!40000 ALTER TABLE " ++ ne
  ++ " DISABLE KEYS */;\n"
  ++ String.join (stmts.map (fun s => s ++ "\n"))
  ++ "/*!40000 ALTER TABLE " ++ ne ++ " ENABLE KEYS */;\nUNLOCK TABLES;\n"

/-- `Data.writeTable` for one table: the bytes written to the sink and the
error `writeTable` returns (template abort on a CreateSQL failure, otherwise
`table.Err` from row scanning). -/
def writeTableRun (B : Int) (db : DbOracle) (name : String) : String × Option String :=
  let ne := tblNameEsc name
  match createSQLRun name (db.showCreate name) with
  | .error e => (tableSectionPre ne, some e)
  | .ok sql =>
      let stmts := stream B ne ((db.tableRows name).map rowBuffer)
      (tableSectionPre ne ++ tableSectionPost ne sql stmts, db.rowsErr name)

/-- The per-table loop of `Data.Dump`: renders tables in order, stopping at
the first failing table; returns the per-table sink bytes (of the attempted
tables, the failing one included) and the first error. -/
def dumpTablesRun (B : Int) (db : DbOracle) : List String → List (String × String) × Option String
  | [] => ([], none)
  | t :: ts =>
      match writeTableRun B db t with
      | (bytes, some e) => ([(t, bytes)], some e)
      | (bytes, none) =>
          let rest := dumpTablesRun B db ts
          ((t, bytes) :: rest.1, rest.2)

/-- What one dump run writes and returns, apart from the transaction log. -/
structure BodyOut where
  headerOut : Option String
  tableOut : List (String × String)
  footerOut : Option String
  result : Option String
deriving DecidableEq

/-- The body of `Data.Dump` after a successful `begin`, in source order:
server version query, header template, table enumeration, the optional LOCK
TABLES statement, the per-table loop, and on success the footer template.
Sink writes themselves are assumed to succeed; the three template constants
always parse. -/
def dumpBody (cfg : DumpConfig) (db : DbOracle) : BodyOut :=
  let B := effectivePacket cfg.maxAllowedPacket
  match db.serverVersion with
  | .error e => ⟨none, [], none, some e⟩
  | .ok sv =>
    match getTablesRun cfg.ignoreTables db.showTables with
    | .error e => ⟨some (headerText sv), [], none, some e⟩
    | .ok tables =>
        if cfg.lockTables ∧ ¬tables.isEmpty ∧ ¬db.lockOk then
          ⟨some (headerText sv), [], none, some "lock tables error"⟩
        else
          match dumpTablesRun B db tables with
          | (touts, some e) => ⟨some (headerText sv), touts, none, some e⟩
          | (touts, none) =>
              ⟨some (headerText sv), touts, some (footerText db.completeTime), none⟩

/-- Result of one `Data.Dump` run, transaction log included. -/
structure DumpResult where
  headerOut : Option String
  tableOut : List (String × String)
  footerOut : Option String
  txLog : List TxAction
  result : Option String
deriving DecidableEq

/-- `Data.Dump`: when `begin` fails the error is returned before the deferred
rollback is registered; otherwise the deferred `data.rollback()` runs at
function exit on every path, success or failure, and no commit exists
anywhere in the source. -/
def dumpRun (cfg : DumpConfig) (db : DbOracle) : DumpResult :=
  if ¬db.beginOk then ⟨none, [], none, [], some "begin error"⟩
  else
    let b := dumpBody cfg db
    ⟨b.headerOut, b.tableOut, b.footerOut, [TxAction.txBegin, TxAction.txRollback], b.result⟩

/-- A database oracle on which every step succeeds: one table `t`, matching
SHOW CREATE TABLE result, one one-column row. -/
def okDb : DbOracle :=
  ⟨true, Except.ok "8.0.1", Except.ok [some "t"], true,
   fun _ => Except.ok ("t", "CREATE TABLE t (id int)"),
   fun _ => [[Value.nullInt true 1]], fun _ => none, "2020-01-01"⟩

/-- A database oracle whose SHOW CREATE TABLE result reports table name `u`
when table `t` is requested. -/
def mismatchDb : DbOracle :=
  ⟨true, Except.ok "8.0.1", Except.ok [some "t"], true,
   fun _ => Except.ok ("u", "CREATE TABLE u (id int)"),
   fun _ => [], fun _ => none, "2020-01-01"⟩

/-! ## Helper lemmas about the batching loop -/

lemma insertSeed_length (ne : String) : (insertSeed ne).length = ne.length + 20 := by
  have h1 : ("INSERT INTO " : String).length = 12 := rfl
  have h2 : (" VALUES " : String).length = 8 := rfl
  simp [insertSeed, String.length_append, h1, h2]
  omega

lemma joinRows_append_single (cur : List String) (r : String) (h : cur ≠ []) :
    joinRows (cur ++ [r]) = joinRows cur ++ "," ++ r := by
  induction cur with
  | nil => exact absurd rfl h
  | cons c cs ih =>
      cases cs with
      | nil => simp [joinRows]
      | cons d ds =>
          have hrec := ih (by simp)
          simp only [List.cons_append] at hrec ⊢
          rw [joinRows, joinRows]
          · rw [hrec]
            simp [String.append_assoc]

lemma bufOf_cons (ne : String) (c : String) (cs : List String) :
    bufOf ne (c :: cs) = insertSeed ne ++ joinRows (c :: cs) := by
  simp [bufOf]

lemma bufOf_single (ne r : String) : bufOf ne [r] = insertSeed ne ++ r := by
  simp [bufOf, joinRows]

lemma bufOf_length_ne_zero (ne : String) (c : String) (cs : List String) :
    (bufOf ne (c :: cs)).length ≠ 0 := by
  rw [bufOf_cons, String.length_append, insertSeed_length]
  omega

lemma bufOf_append_last (ne : String) (c : String) (cs : List String) (r : String) :
    bufOf ne ((c :: cs) ++ [r]) = bufOf ne (c :: cs) ++ "," ++ r := by
  have h : (c :: cs) ++ [r] = c :: (cs ++ [r]) := rfl
  rw [h, bufOf_cons, bufOf_cons]
  rw [show joinRows (c :: (cs ++ [r])) = joinRows ((c :: cs) ++ [r]) from rfl]
  rw [joinRows_append_single (c :: cs) r (by simp)]
  simp [String.append_assoc]

lemma renderBatch_eq_buf (ne : String) (c : String) (cs : List String) :
    renderBatch ne (c :: cs) = bufOf ne (c :: cs) ++ ";" := by
  rw [renderBatch, bufOf_cons, String.append_assoc]

/-- The source loop on the string buffer and the ghost loop on row batches
make the same decisions and produce, statement by statement, the rendered
batches. -/
lemma streamGo_eq_batches (B : Int) (ne : String) :
    ∀ (rows cur : List String),
      streamGo B ne (bufOf ne cur) rows = (batchesGo B ne cur rows).map (renderBatch ne) := by
  intro rows
  induction rows with
  | nil =>
      intro cur
      cases cur with
      | nil => simp [streamGo, batchesGo, bufOf]
      | cons c cs =>
          have h1 := bufOf_length_ne_zero ne c cs
          simp [streamGo, batchesGo, h1, renderBatch_eq_buf]
  | cons r rs ih =>
      intro cur
      cases cur with
      | nil =>
          have hb : bufOf ne ([] : List String) = "" := by simp [bufOf]
          rw [hb]
          rw [streamGo, batchesGo]
          simp only [String.length_empty, ne_eq, not_true_eq_false, false_and, if_false,
            List.isEmpty_nil]
          have hrec := ih [r]
          rw [bufOf_single] at hrec
          simpa using hrec
      | cons c cs =>
          have h1 := bufOf_length_ne_zero ne c cs
          by_cases hnum : ((bufOf ne (c :: cs)).length : Int) + (r.length : Int) > B - 1
          · rw [streamGo, batchesGo]
            rw [if_pos ⟨h1, hnum⟩, if_pos ⟨by simp, hnum⟩]
            rw [List.map_cons, renderBatch_eq_buf]
            have hrec := ih [r]
            rw [bufOf_single] at hrec
            rw [hrec]
          · have hcondL : ¬((bufOf ne (c :: cs)).length ≠ 0 ∧
                ((bufOf ne (c :: cs)).length : Int) + (r.length : Int) > B - 1) := by tauto
            have hcondR : ¬(¬(c :: cs).isEmpty = true ∧
                ((bufOf ne (c :: cs)).length : Int) + (r.length : Int) > B - 1) := by tauto
            rw [streamGo, batchesGo]
            rw [if_neg hcondL, if_neg hcondR, if_neg h1]
            rw [← bufOf_append_last ne c cs r]
            exact ih ((c :: cs) ++ [r])

/-- The batches of a run cover exactly the consumed rows, in order. -/
lemma batchesGo_flatten (B : Int) (ne : String) :
    ∀ (rows cur : List String), (batchesGo B ne cur rows).flatten = cur ++ rows := by
  intro rows
  induction rows with
  | nil =>
      intro cur
      cases cur with
      | nil => simp [batchesGo]
      | cons c cs => simp [batchesGo]
  | cons r rs ih =>
      intro cur
      rw [batchesGo]
      by_cases hcond : ¬cur.isEmpty = true ∧ ((bufOf ne cur).length : Int) + (r.length : Int) > B - 1
      · rw [if_pos hcond]
        rw [List.flatten_cons, ih [r]]
        simp
      · rw [if_neg hcond]
        rw [ih (cur ++ [r])]
        simp

lemma renderBatch_length (ne : String) (c : String) (cs : List String) :
    (renderBatch ne (c :: cs)).length = (bufOf ne (c :: cs)).length + 1 := by
  rw [renderBatch_eq_buf, String.length_append]
  rfl

/-- Loop invariant of the batcher: any produced batch holding at least two
rows renders to at most `B + 1` bytes (the flush check reserves one byte for
the closing semicolon but none for the joining comma). -/
lemma batchesGo_bound (B : Int) (ne : String) :
    ∀ (rows cur : List String),
      (2 ≤ cur.length → ((bufOf ne cur).length : Int) ≤ B) →
      ∀ batch ∈ batchesGo B ne cur rows, 2 ≤ batch.length →
        ((renderBatch ne batch).length : Int) ≤ B + 1 := by
  intro rows
  induction rows with
  | nil =>
      intro cur hinv batch hmem hlen
      cases cur with
      | nil => simp [batchesGo] at hmem
      | cons c cs =>
          simp [batchesGo] at hmem
          subst hmem
          rw [renderBatch_length]
          have := hinv hlen
          push_cast
          omega
  | cons r rs ih =>
      intro cur hinv batch hmem hlen
      rw [batchesGo] at hmem
      by_cases hcond : ¬cur.isEmpty = true ∧ ((bufOf ne cur).length : Int) + (r.length : Int) > B - 1
      · rw [if_pos hcond] at hmem
        rcases List.mem_cons.mp hmem with hbatch | hrest
        · subst hbatch
          cases batch with
          | nil => simp at hlen
          | cons c cs =>
              rw [renderBatch_length]
              have := hinv hlen
              push_cast
              omega
        · exact ih [r] (by intro h2; simp at h2) batch hrest hlen
      · rw [if_neg hcond] at hmem
        refine ih (cur ++ [r]) ?_ batch hmem hlen
        intro h2
        cases cur with
        | nil => simp at h2
        | cons c cs =>
            rw [bufOf_append_last, String.length_append, String.length_append]
            have hn : ¬(((bufOf ne (c :: cs)).length : Int) + (r.length : Int) > B - 1) := by
              rcases not_and_or.mp hcond with h | h
              · simp at h
              · exact h
            have hc : (("," : String).length) = 1 := rfl
            rw [hc]
            push_cast
            omega

lemma renderBatch_single_length (ne r : String) :
    (renderBatch ne [r]).length = (insertSeed ne).length + r.length + 1 := by
  rw [renderBatch]
  rw [joinRows]
  rw [String.length_append, String.length_append]
  rfl

/-! ## Helper lemmas about sanitize -/

lemma sanitizeList_append (a b : List Char) :
    sanitizeList (a ++ b) = sanitizeList a ++ sanitizeList b := by
  induction a with
  | nil => simp [sanitizeList]
  | cons c cs ih => simp [sanitizeList, ih, String.append_assoc]

lemma sanitize_append_hom (s t : String) : sanitize (s ++ t) = sanitize s ++ sanitize t := by
  rw [sanitize, sanitize, sanitize]
  rw [show (s ++ t).toList = s.toList ++ t.toList from String.data_append s t]
  exact sanitizeList_append s.toList t.toList

lemma sanitize_singleton (c : Char) : sanitize (String.singleton c) = sanitizeChar c := by
  rw [sanitize]
  rw [show (String.singleton c).toList = [c] from rfl]
  rw [sanitizeList, sanitizeList]
  simp

/-! ## Helper lemmas about the dump session -/

lemma writeTableRun_mismatch (B : Int) (db : DbOracle) (t ret sql : String)
    (hsc : db.showCreate t = .ok (ret, sql)) (hne : ret ≠ t) :
    writeTableRun B db t =
      (tableSectionPre (tblNameEsc t),
       some "Returned table is not the same as requested table") := by
  rw [writeTableRun, hsc, createSQLRun]
  simp [hne]

lemma tableSectionPre_ne_empty (ne : String) : tableSectionPre ne ≠ "" := by
  intro h
  have hl := congrArg String.length h
  rw [tableSectionPre] at hl
  simp [String.length_append] at hl
  exact absurd hl.1.1.1.1 (by decide)

/-- The per-table loop renders every table before the first failing one in
full, renders the failing table up to its failure point, and stops with its
error. -/
lemma dumpTablesRun_until_error (B : Int) (db : DbOracle) (t : String) (ts : List String)
    (bytes e : String) (hw : writeTableRun B db t = (bytes, some e)) :
    ∀ pre : List String, (∀ u ∈ pre, (writeTableRun B db u).2 = none) →
      dumpTablesRun B db (pre ++ t :: ts)
        = ((pre.map fun u => (u, (writeTableRun B db u).1)) ++ [(t, bytes)], some e) := by
  intro pre
  induction pre with
  | nil =>
      intro _
      rw [List.nil_append, dumpTablesRun, hw]
      simp
  | cons u us ih =>
      intro hok
      have hu := hok u (by simp)
      rcases hwu : writeTableRun B db u with ⟨bu, eu⟩
      rw [hwu] at hu
      simp at hu
      subst hu
      rw [List.cons_append, dumpTablesRun, hwu]
      rw [ih (fun v hv => hok v (by simp [hv]))]
      simp [hwu]

lemma writeTableRun_err_indep (B B2 : Int) (db : DbOracle) (t : String) :
    (writeTableRun B db t).2 = (writeTableRun B2 db t).2 := by
  rw [writeTableRun, writeTableRun]
  cases h : createSQLRun t (db.showCreate t) <;> simp

lemma dumpTablesRun_err_indep (B B2 : Int) (db : DbOracle) :
    ∀ ts : List String, (dumpTablesRun B db ts).2 = (dumpTablesRun B2 db ts).2 := by
  intro ts
  induction ts with
  | nil => rfl
  | cons t ts ih =>
      have h := writeTableRun_err_indep B B2 db t
      rcases hw : writeTableRun B db t with ⟨b1, e1⟩
      rcases hw2 : writeTableRun B2 db t with ⟨b2, e2⟩
      rw [hw, hw2] at h
      simp at h
      rw [dumpTablesRun, dumpTablesRun, hw, hw2]
      cases e1 with
      | some e => rw [← h]
      | none =>
          rw [← h]
          simp [ih]

/-- Whether the dump succeeds or with which error it fails never depends on
the configured packet budget. -/
lemma dumpBody_result_indep (ig : List String) (lock : Bool) (m m2 : Int) (db : DbOracle) :
    (dumpBody ⟨ig, m, lock⟩ db).result = (dumpBody ⟨ig, m2, lock⟩ db).result := by
  rw [dumpBody, dumpBody]
  cases hsv : db.serverVersion with
  | error e => simp
  | ok sv =>
      simp only []
      cases htab : getTablesRun ig db.showTables with
      | error e => simp
      | ok tables =>
          simp only []
          by_cases hl : (lock = true) ∧ ¬tables.isEmpty = true ∧ ¬db.lockOk = true
          · rw [if_pos hl, if_pos hl]
          · rw [if_neg hl, if_neg hl]
            have herr := dumpTablesRun_err_indep (effectivePacket m) (effectivePacket m2) db tables
            rcases h1 : dumpTablesRun (effectivePacket m) db tables with ⟨o1, r1⟩
            rcases h2 : dumpTablesRun (effectivePacket m2) db tables with ⟨o2, r2⟩
            rw [h1, h2] at herr
            simp at herr
            cases r1 with
            | some e => rw [← herr]
            | none => rw [← herr]

/-! ## Claim theorems -/

/-- C1 (counterexample): with budget `B = 30` and two three-byte rows for
table `t`, `table.Stream` emits a single statement of 31 bytes, exceeding
`B`, although the statement contains two rows and each row on its own is far
below `B` — refuting the claim that only single-row statements whose own
encoded length exceeds `B` may exceed the budget. -/
theorem stream_statement_length_counterexample :
    stream 30 (tblNameEsc "t") ["(1)", "(2)"] = ["INSERT INTO `t` VALUES (1),(2);"]
    ∧ (("INSERT INTO `t` VALUES (1),(2);" : String).length : Int) > 30
    ∧ batches 30 (tblNameEsc "t") ["(1)", "(2)"] = [["(1)", "(2)"]]
    ∧ ("(1)" : String).length ≤ 30 ∧ ("(2)" : String).length ≤ 30 := by
  refine ⟨by decide, by decide, by decide, by decide, by decide⟩

/-- C1 (amended): the statements `table.Stream` emits are the rendered row
batches; every statement containing at least two rows has byte length at most
`B + 1` (not `B`: the flush check reserves a byte for the closing semicolon
but none for the joining comma); and a statement containing a single row `r`
has byte length exactly `|INSERT INTO <name> VALUES | + |r| + 1`, so it can
exceed the budget even when `r` alone does not. -/
theorem stream_statement_length_amended (B : Int) (ne : String) (rows : List String) :
    stream B ne rows = (batches B ne rows).map (renderBatch ne)
    ∧ (∀ batch ∈ batches B ne rows, 2 ≤ batch.length →
        ((renderBatch ne batch).length : Int) ≤ B + 1)
    ∧ (∀ r : String, (renderBatch ne [r]).length = (insertSeed ne).length + r.length + 1) := by
  have h0 : bufOf ne ([] : List String) = "" := by simp [bufOf]
  refine ⟨?_, ?_, renderBatch_single_length ne⟩
  · have h := streamGo_eq_batches B ne rows []
    rw [h0] at h
    exact h
  · intro batch hmem hlen
    refine batchesGo_bound B ne rows [] ?_ batch hmem hlen
    intro h2
    simp at h2

/-- C1 (witness): the amended bound applied to the two-row batch of the
concrete `B = 30` run. -/
theorem stream_statement_length_amended_witness :
    ((renderBatch (tblNameEsc "t") ["(1)", "(2)"]).length : Int) ≤ 30 + 1 :=
  (stream_statement_length_amended 30 (tblNameEsc "t") ["(1)", "(2)"]).2.1
    ["(1)", "(2)"] (by decide) (by decide)

/-- C2 (code bug evaluation): on the exact rows of the repository test
`TestCreateTableValuesSteam`, `table.Stream` seeds the statement with
`INSERT INTO <name> VALUES ` and emits no column list: the resulting
statement differs from the one the test expects, and the seed text contains
no opening parenthesis at all, so no column list can be present. -/
theorem stream_seed_has_no_column_list :
    stream 4096 (tblNameEsc "test")
        [rowBuffer [Value.nullInt true 1, Value.nullString true "test@test.de",
           Value.nullString true "Test Name 1"],
         rowBuffer [Value.nullInt true 2, Value.nullString true "test2@test.de",
           Value.nullString true "Test Name 2"]]
      = ["INSERT INTO `test` VALUES (1,\x27test@test.de\x27,\x27Test Name 1\x27),(2,\x27test2@test.de\x27,\x27Test Name 2\x27);"]
    ∧ "INSERT INTO `test` VALUES (1,\x27test@test.de\x27,\x27Test Name 1\x27),(2,\x27test2@test.de\x27,\x27Test Name 2\x27);"
      ≠ "INSERT INTO `test` (`id`, `email`, `name`) VALUES (1,\x27test@test.de\x27,\x27Test Name 1\x27),(2,\x27test2@test.de\x27,\x27Test Name 2\x27);"
    ∧ (insertSeed (tblNameEsc "test")).toList.count (Char.ofNat 40) = 0 := by
  refine ⟨by decide, by decide, by decide⟩

/-- C3 (counterexample): with a SHOW CREATE TABLE oracle returning name `u`
for requested table `t`, the dump fails with the consistency error, but the
bytes written to the sink for table `t` are the DDL-section preamble, which
is not empty — refuting the zero-bytes part of the claim. -/
theorem ddl_mismatch_bytes_counterexample :
    (dumpRun ⟨[], 0, false⟩ mismatchDb).result
        = some "Returned table is not the same as requested table"
    ∧ (dumpRun ⟨[], 0, false⟩ mismatchDb).tableOut
        = [("t", tableSectionPre (tblNameEsc "t"))]
    ∧ tableSectionPre (tblNameEsc "t") ≠ ""
    ∧ (dumpRun ⟨[], 0, false⟩ mismatchDb).footerOut = none := by
  refine ⟨rfl, rfl, by decide, rfl⟩

/-- C3 (amended): whenever the SHOW CREATE TABLE result for a reached table
(all earlier tables render cleanly and table locking, if requested, has
succeeded) carries a name different from the requested one, the whole dump
fails with the consistency error, no later table is attempted and no footer
is written; the bytes written for the failing table are exactly the
DDL-section preamble (section comment, DROP TABLE and charset lines), which
is nonzero, and its data section is never emitted. -/
theorem ddl_mismatch_aborts_dump_amended (cfg : DumpConfig) (db : DbOracle) (sv : String)
    (pre : List String) (t : String) (ts : List String) (ret sql : String)
    (hb : db.beginOk = true)
    (hsv : db.serverVersion = Except.ok sv)
    (htab : getTablesRun cfg.ignoreTables db.showTables = Except.ok (pre ++ t :: ts))
    (hlock : cfg.lockTables = false ∨ db.lockOk = true)
    (hpre : ∀ u ∈ pre, (writeTableRun (effectivePacket cfg.maxAllowedPacket) db u).2 = none)
    (hsc : db.showCreate t = Except.ok (ret, sql))
    (hne : ret ≠ t) :
    (dumpRun cfg db).result = some "Returned table is not the same as requested table"
    ∧ (dumpRun cfg db).tableOut =
        (pre.map fun u => (u, (writeTableRun (effectivePacket cfg.maxAllowedPacket) db u).1))
        ++ [(t, tableSectionPre (tblNameEsc t))]
    ∧ (dumpRun cfg db).footerOut = none
    ∧ tableSectionPre (tblNameEsc t) ≠ "" := by
  have hw := writeTableRun_mismatch (effectivePacket cfg.maxAllowedPacket) db t ret sql hsc hne
  have hloop := dumpTablesRun_until_error (effectivePacket cfg.maxAllowedPacket) db t ts
    (tableSectionPre (tblNameEsc t)) "Returned table is not the same as requested table"
    hw pre hpre
  rw [dumpRun, if_neg (by simp [hb])]
  simp only [dumpBody, hsv, htab]
  rw [if_neg (by rcases hlock with h | h <;> simp [h])]
  rw [hloop]
  exact ⟨rfl, rfl, rfl, tableSectionPre_ne_empty (tblNameEsc t)⟩

/-- C3 (witness): the amended theorem applied to the concrete mismatching
oracle. -/
theorem ddl_mismatch_aborts_dump_amended_witness :
    (dumpRun ⟨[], 0, false⟩ mismatchDb).result
      = some "Returned table is not the same as requested table"
    ∧ (dumpRun ⟨[], 0, false⟩ mismatchDb).footerOut = none :=
  ⟨(ddl_mismatch_aborts_dump_amended ⟨[], 0, false⟩ mismatchDb "8.0.1" [] "t" []
      "u" "CREATE TABLE u (id int)" rfl rfl rfl (Or.inl rfl) (by simp) rfl (by decide)).1,
   (ddl_mismatch_aborts_dump_amended ⟨[], 0, false⟩ mismatchDb "8.0.1" [] "t" []
      "u" "CREATE TABLE u (id int)" rfl rfl rfl (Or.inl rfl) (by simp) rfl (by decide)).2.2.1⟩

/-- C4 (counterexample): with `MaxAllowedPacket = -1` (a non-positive budget)
and an otherwise healthy database, the dump runs to completion and returns no
error at all — there is no configuration-error abort, and the budget is not
replaced by the default. -/
theorem negative_budget_counterexample :
    (dumpRun ⟨[], -1, false⟩ okDb).result = none
    ∧ (dumpRun ⟨[], -1, false⟩ okDb).footerOut.isSome = true
    ∧ (dumpRun ⟨[], -1, false⟩ okDb).tableOut.length = 1
    ∧ effectivePacket (-1) = -1 := by
  refine ⟨rfl, rfl, rfl, rfl⟩

/-- C4 (amended): `Data.Dump` validates nothing about the budget: only an
exactly-zero `MaxAllowedPacket` is replaced by the 4194304-byte default,
every other value (negative ones included) is used as given, and the dump
result (success, or which error) never depends on the budget at all — no
configuration-error path exists. -/
theorem budget_not_validated_amended :
    effectivePacket 0 = defaultMaxAllowedPacket
    ∧ (∀ m : Int, m ≠ 0 → effectivePacket m = m)
    ∧ (∀ (ig : List String) (lock : Bool) (m m2 : Int) (db : DbOracle),
        (dumpRun ⟨ig, m, lock⟩ db).result = (dumpRun ⟨ig, m2, lock⟩ db).result) := by
  refine ⟨rfl, ?_, ?_⟩
  · intro m hm
    simp [effectivePacket, hm]
  · intro ig lock m m2 db
    rw [dumpRun, dumpRun]
    by_cases hb : db.beginOk = true
    · rw [if_neg (by simp [hb]), if_neg (by simp [hb])]
      exact dumpBody_result_indep ig lock m m2 db
    · rw [if_pos (by simp [hb]), if_pos (by simp [hb])]

/-- C4 (witness): the amended claim at a concrete negative budget. -/
theorem budget_not_validated_amended_witness :
    effectivePacket (-7) = -7 ∧ effectivePacket 0 = defaultMaxAllowedPacket :=
  ⟨budget_not_validated_amended.2.1 (-7) (by decide), budget_not_validated_amended.1⟩

/-- C5: `sanitize` is a homomorphism on string concatenation (it processes
the input in one pass, character by character, so output escapes are never
re-scanned and no double escaping can occur); each of the nine special
characters maps to its two-character escape; every other character is left
unchanged; and the spec example value O-quote-Brien-backslash (the quote
written as code 39) sanitizes to O-backslash-quote-Brien-backslash-backslash
and encodes, quoted, exactly as the spec requires. -/
theorem sanitize_single_pass_spec :
    (∀ s t : String, sanitize (s ++ t) = sanitize s ++ sanitize t)
    ∧ sanitize (String.singleton (Char.ofNat 0)) = "\\0"
    ∧ sanitize (String.singleton (Char.ofNat 39)) = "\\\x27"
    ∧ sanitize (String.singleton (Char.ofNat 34)) = "\\\x22"
    ∧ sanitize (String.singleton (Char.ofNat 8)) = "\\b"
    ∧ sanitize (String.singleton (Char.ofNat 10)) = "\\n"
    ∧ sanitize (String.singleton (Char.ofNat 13)) = "\\r"
    ∧ sanitize (String.singleton (Char.ofNat 26)) = "\\Z"
    ∧ sanitize (String.singleton (Char.ofNat 92)) = "\\\\"
    ∧ sanitize (String.singleton (Char.ofNat 37)) = "\\%"
    ∧ (∀ c : Char, c ∉ sanitizeSpecials → sanitize (String.singleton c) = String.singleton c)
    ∧ sanitize "O\x27Brien\\" = "O\\\x27Brien\\\\"
    ∧ valueLit (.nullString true "O\x27Brien\\") = "\x27O\\\x27Brien\\\\\x27" := by
  refine ⟨sanitize_append_hom, by decide, by decide, by decide, by decide, by decide,
    by decide, by decide, by decide, by decide, ?_, by decide, by decide⟩
  intro c h
  rw [sanitize_singleton]
  simp [sanitizeSpecials] at h
  simp [sanitizeChar, h.1, h.2.1, h.2.2.1, h.2.2.2.1, h.2.2.2.2.1, h.2.2.2.2.2.1,
    h.2.2.2.2.2.2.1, h.2.2.2.2.2.2.2.1, h.2.2.2.2.2.2.2.2]

/-- C5 (witness): the homomorphism and the unchanged-character clause at
concrete inputs. -/
theorem sanitize_single_pass_spec_witness :
    sanitize ("ab" ++ "\x27") = sanitize "ab" ++ sanitize "\x27"
    ∧ sanitize (String.singleton (Char.ofNat 97)) = String.singleton (Char.ofNat 97) :=
  ⟨sanitize_single_pass_spec.1 "ab" "\x27",
   sanitize_single_pass_spec.2.2.2.2.2.2.2.2.2.2.1 (Char.ofNat 97) (by decide)⟩

/-- C6: the value encoder turns a zero-length binary value into unquoted
`NULL`, a non-empty binary value into `_binary <quoted sanitized bytes>`, and
a nil interface, an invalid string and an invalid integer all into unquoted
`NULL`. -/
theorem value_encoder_null_and_binary :
    (∀ b : String, b.length = 0 → valueLit (.rawBytes b) = "NULL")
    ∧ (∀ b : String, b.length ≠ 0 →
        valueLit (.rawBytes b) = "_binary \x27" ++ sanitize b ++ "\x27")
    ∧ valueLit .vNil = "NULL"
    ∧ (∀ s : String, valueLit (.nullString false s) = "NULL")
    ∧ (∀ i : Int, valueLit (.nullInt false i) = "NULL") := by
  refine ⟨?_, ?_, rfl, ?_, ?_⟩ <;> intros <;> simp [valueLit, *]

/-- C6 (witness): the encoder clauses at concrete values. -/
theorem value_encoder_null_and_binary_witness :
    valueLit (.rawBytes "") = "NULL"
    ∧ valueLit (.rawBytes "ab") = "_binary \x27" ++ sanitize "ab" ++ "\x27"
    ∧ valueLit (.nullString false "x") = "NULL"
    ∧ valueLit (.nullInt false 7) = "NULL" :=
  ⟨value_encoder_null_and_binary.1 "" rfl, value_encoder_null_and_binary.2.1 "ab" (by decide),
   value_encoder_null_and_binary.2.2.2.1 "x", value_encoder_null_and_binary.2.2.2.2 7⟩

/-- C7: for a cursor yielding zero rows, `table.Stream` emits no statement at
all, for any budget and table name. -/
theorem stream_zero_rows_emits_nothing (B : Int) (ne : String) : stream B ne [] = [] := by
  simp [stream, streamGo]

/-- C8: whenever the snapshot transaction opens successfully, the transaction
log of the dump run is exactly a begin followed by a rollback — the deferred
rollback runs last on every path, success or failure, and no commit is ever
issued. -/
theorem dump_always_rolls_back (cfg : DumpConfig) (db : DbOracle)
    (hb : db.beginOk = true) :
    (dumpRun cfg db).txLog = [TxAction.txBegin, TxAction.txRollback]
    ∧ TxAction.txCommit ∉ (dumpRun cfg db).txLog
    ∧ (dumpRun cfg db).txLog.getLast? = some TxAction.txRollback := by
  rw [dumpRun, if_neg (by simp [hb])]
  refine ⟨rfl, by simp, rfl⟩

/-- C8 (witness): the rollback guarantee on a concrete successful run. -/
theorem dump_always_rolls_back_witness :
    (dumpRun ⟨[], 0, false⟩ okDb).txLog = [TxAction.txBegin, TxAction.txRollback]
    ∧ TxAction.txCommit ∉ (dumpRun ⟨[], 0, false⟩ okDb).txLog
    ∧ (dumpRun ⟨[], 0, false⟩ okDb).txLog.getLast? = some TxAction.txRollback :=
  dump_always_rolls_back ⟨[], 0, false⟩ okDb rfl

/-- C9: the statements `table.Stream` emits are exactly the rendered row
batches, and flattening the batches gives back the encoded rows in cursor
order — batching neither drops, duplicates nor reorders a row. -/
theorem stream_preserves_rows (B : Int) (ne : String) (rows : List String) :
    stream B ne rows = (batches B ne rows).map (renderBatch ne)
    ∧ (batches B ne rows).flatten = rows := by
  have h0 : bufOf ne ([] : List String) = "" := by simp [bufOf]
  constructor
  · have h := streamGo_eq_batches B ne rows []
    rw [h0] at h
    exact h
  · simpa using batchesGo_flatten B ne rows []

/-- C10: a valid empty textual value encodes to the two-character literal of
two quotes, not to `NULL`. -/
theorem empty_text_encodes_as_quotes :
    valueLit (.nullString true "") = "\x27\x27"
    ∧ valueLit (.nullString true "") ≠ "NULL"
    ∧ (valueLit (.nullString true "")).length = 2 := by decide

end MysqlDump
